import Mathlib

/-!
A shallow embedding of the sandwine sandbox configuration builder
(`src/sandwine/_main.py`): the mount plan, the environment plan, the
search-path filter and the bwrap argv assembly, together with theorems
checking the claims of the specification about them.

Host-dependent primitives (`os.path.exists`, `os.path.realpath`,
`os.path.abspath`, `os.environ`, the X11 unix-socket path supplied by the
display subsystem and the generated random hostname) are modelled as
fields of a `Host` record: the builder reads them but never changes them,
except for `os.makedirs` on a missing `--dotwine` path, which is modelled
by recording the created directory and extending the existence predicate
for the later mount-rendering loop.  Paths are strings, `os.sep = '/'`,
`os.pathsep = ':'`.  `sys.exit(1)` and an uncaught `ValueError` (both of
which terminate the interpreter with exit status 1) are modelled as
`Except.error 1`.
-/

namespace Sandwine

/-- Access modes for mount points (`AccessMode` in the source). -/
inductive AccessMode where
  | READ_ONLY
  | READ_WRITE
deriving DecidableEq, Repr

/-- Mount modes (`MountMode` in the source). -/
inductive MountMode where
  | DEVTMPFS
  | BIND_RO
  | BIND_RW
  | BIND_DEV
  | TMPFS
  | PROC
deriving DecidableEq, Repr

/-- One mount task (the `MountTask` dataclass).  `source = none` models
the Python source `None` default and means "same as target" at render time. -/
structure MountTask where
  mode : MountMode
  target : String
  source : Option String
  required : Bool
deriving DecidableEq, Repr

/-- Model of `single_trailing_sep`: `path.rstrip(os.sep) + os.sep` with slash as separator. -/
def single_trailing_sep (path : String) : String :=
  String.mk ((path.data.reverse.dropWhile (fun c => c == '/')).reverse ++ ['/'])

/-- the Python source `s.startswith(pre)`. -/
def strStartsWith (s pre : String) : Bool :=
  pre.data.isPrefixOf s.data

/-- Auxiliary for `splitChar`: accumulates the current field reversed. -/
def splitCharAux (sep : Char) : List Char → List Char → List String
  | [], acc => [String.mk acc.reverse]
  | c :: cs, acc =>
    if c == sep then String.mk acc.reverse :: splitCharAux sep cs []
    else splitCharAux sep cs (c :: acc)

/-- the Python source `s.split(sep)` for a one-character separator:
`"a:b".split(':') = ["a","b"]`, `"".split(':') = [""]`. -/
def splitChar (sep : Char) (s : String) : List String :=
  splitCharAux sep s.data []

/-- the Python source `sep.join(parts)`. -/
def joinWith (sep : String) : List String → String
  | [] => ""
  | [x] => x
  | x :: y :: xs => x ++ sep ++ joinWith sep (y :: xs)

/-- Split a character list at the LAST occurrence of `sep` (the Python source
`candidate.rsplit(sep, 1)`); `none` when `sep` does not occur. -/
def rsplitLast (sep : Char) : List Char → Option (List Char × List Char)
  | [] => none
  | c :: cs =>
    match rsplitLast sep cs with
    | some (l, r) => some (c :: l, r)
    | none => if c == sep then some ([], cs) else none

/-- Model of `parse_path_colon_access`: reject when no colon occurs, split at
the last `':'`, and map the trailing token `"ro"` / `"rw"` to an access
mode.  `none` models the raised `ValueError`. -/
def parse_path_colon_access (candidate : String) : Option (String × AccessMode) :=
  if candidate.data.contains ':' then
    match rsplitLast ':' candidate.data with
    | some (path, tok) =>
      if tok = ['r', 'o'] then some (String.mk path, AccessMode.READ_ONLY)
      else if tok = ['r', 'w'] then some (String.mk path, AccessMode.READ_WRITE)
      else none
    | none => none
  else none

/-- Insert `x` into `l` before the first element `y` with `lt y x = false`;
auxiliary for the stable sort. -/
def insertSorted (lt : α → α → Bool) (x : α) : List α → List α
  | [] => [x]
  | y :: ys => if lt y x then y :: insertSorted lt x ys else x :: y :: ys

/-- Stable insertion sort over an `__lt__`-style comparison, modelling
the Python source stable `sorted(..)`: elements that compare equal keep their
input order, so the output agrees with Cthe Python source Timsort for every total
preorder. -/
def pySorted (lt : α → α → Bool) : List α → List α
  | [] => []
  | x :: xs => insertSorted lt x (pySorted lt xs)

/-- Code-point lexicographic comparison of character lists, exactly the
Python string less-than; executable and agreeing with the Mathlib order
on `String` (`strLtB_iff` below). -/
def lexLt : List Char → List Char → Bool
  | [], [] => false
  | [], _ :: _ => true
  | _ :: _, [] => false
  | a :: as, b :: bs =>
    if a.toNat < b.toNat then true
    else if b.toNat < a.toNat then false
    else lexLt as bs

/-- the Python source `<` on strings. -/
def strLtB (a b : String) : Bool := lexLt a.data b.data

/-- The comparison used by the sort over mount tasks (key = attrgetter of
target): raw (unnormalized) lexicographic order on the `target` string. -/
def taskLt (a b : MountTask) : Bool := strLtB a.target b.target

/-- Model of the call sorted(mount_tasks, key=attrgetter(target)). -/
def sortTasks (l : List MountTask) : List MountTask := pySorted taskLt l

def envLt (a b : String × Option String) : Bool := strLtB a.1 b.1

/-- Model of the call sorted(env_tasks.items(), key=itemgetter(0)). -/
def sortEnvPairs (l : List (String × Option String)) : List (String × Option String) :=
  pySorted envLt l

/-- Python dict assignment `d[k] = v` on a dict represented as an ordered
association list: replace in place when the key exists, append otherwise. -/
def dictInsert (l : List (String × Option String)) (k : String) (v : Option String) :
    List (String × Option String) :=
  match l with
  | [] => [(k, v)]
  | p :: rest => if p.1 = k then (k, v) :: rest else p :: dictInsert rest k v

/-- One iteration of the `--setenv` loop: an entry with an explicit value
is emitted as is; a `none` (inherit) entry is looked up in the host
environment and skipped entirely when absent there. -/
def envGroup (environ : String → Option String) (p : String × Option String) :
    Option (List String) :=
  match p.2 with
  | some v => some ["--setenv", p.1, v]
  | none =>
    match environ p.1 with
    | some v => some ["--setenv", p.1, v]
    | none => none

/-- The `--setenv` loop over the sorted environment entries. -/
def renderEnv (environ : String → Option String) (pairs : List (String × Option String)) :
    List (List String) :=
  pairs.filterMap (envGroup environ)

/-- Membership test mount_task.mode in (BIND_RO, BIND_RW, BIND_DEV). -/
def isBindMode : MountMode → Bool
  | MountMode.BIND_RO => true
  | MountMode.BIND_RW => true
  | MountMode.BIND_DEV => true
  | _ => false

/-- The bwrap flag chosen for a bind-type mount mode (only ever applied to
bind modes; the catch-all is unreachable). -/
def bindFlag : MountMode → String
  | MountMode.BIND_RO => "--ro-bind"
  | MountMode.BIND_RW => "--bind"
  | _ => "--dev-bind"

/-- The mount-stack loop of `create_bwrap_argv`, one flag group per task in
list order: `--tmpfs` / `--dev` / `--proc` tasks are rendered
unconditionally; a bind-type task defaults its source to its target, and a
bind-type task whose source does not exist (`ex`) and which is not
exempted (`exempt`, the display-socket bypass) aborts via `sys.exit(1)`
when required and is dropped otherwise. -/
def renderMounts (ex exempt : String → Bool) : List MountTask → Except Nat (List (List String))
  | [] => Except.ok []
  | t :: rest =>
    match t.mode with
    | MountMode.TMPFS => (renderMounts ex exempt rest).map (fun gs => ["--tmpfs", t.target] :: gs)
    | MountMode.DEVTMPFS => (renderMounts ex exempt rest).map (fun gs => ["--dev", t.target] :: gs)
    | MountMode.PROC => (renderMounts ex exempt rest).map (fun gs => ["--proc", t.target] :: gs)
    | _ =>
      let source := t.source.getD t.target
      if !(ex source) && !(exempt t.target) then
        if t.required then Except.error 1
        else renderMounts ex exempt rest
      else
        (renderMounts ex exempt rest).map (fun gs => [bindFlag t.mode, source, t.target] :: gs)

/-- The flag group a single task contributes to the mount stack (`none`
when the missing-source filter drops it); `renderMounts` produces exactly
the `filterMap` of this function whenever it does not abort. -/
def renderTaskOpt (ex exempt : String → Bool) (t : MountTask) : Option (List String) :=
  match t.mode with
  | MountMode.TMPFS => some ["--tmpfs", t.target]
  | MountMode.DEVTMPFS => some ["--dev", t.target]
  | MountMode.PROC => some ["--proc", t.target]
  | _ =>
    let source := t.source.getD t.target
    if !(ex source) && !(exempt t.target) then none
    else some [bindFlag t.mode, source, t.target]

/-- Whether a task survives the missing-source filter (every non-bind task
does; a bind task survives when its effective source exists or it is the
display-socket exemption). -/
def survivesMissingSource (ex exempt : String → Bool) (t : MountTask) : Bool :=
  !(isBindMode t.mode) || ex (t.source.getD t.target) || exempt t.target

/-- The post-missing-source-filtering mount set: the tasks the render loop
actually emits flags for. -/
def keptMountTasks (ex exempt : String → Bool) (tasks : List MountTask) : List MountTask :=
  tasks.filter (survivesMissingSource ex exempt)

/-- The `${PATH}` containment test of `create_bwrap_argv`: a candidate is
covered when some task of the SORTED mount list (iterated in reverse, as
in the source) is bind-type and its single-trailing-separator-normalized
target is a string prefix of the normalized candidate. -/
def pathCovered (tasks : List MountTask) (candidate : String) : Bool :=
  tasks.reverse.any (fun t =>
    strStartsWith (single_trailing_sep candidate) (single_trailing_sep t.target)
      && isBindMode t.mode)

/-- The `${PATH}` filter: canonicalize each candidate with
`os.path.realpath`, keep the covered ones, preserving order. -/
def availablePaths (realpath : String → String) (tasks : List MountTask)
    (cands : List String) : List String :=
  (cands.map realpath).filter (fun c => pathCovered tasks c)

/-- The host as the builder observes it. -/
structure Host where
  home : String
  uid : Nat
  pathExists : String → Bool
  realpath : String → String
  abspath : String → String
  environ : String → Option String
  envPATH : String
  x11Socket : Nat → String
  hostname : String

/-- The parsed command-line configuration.  `x11` models
`X11Mode(config.x11) != X11Mode.NONE` (the display-enabled test used by
the builder; the concrete nested-display flavor never matters to it). -/
structure Config where
  argv_0 : Option String
  argv_1_plus : List String
  x11 : Bool
  x11_display_number : Nat
  network : Bool
  pulseaudio : Bool
  dotwine : Option String
  extra_binds : List String
  configure : Bool
  with_pty : Bool
  with_wine : Bool
  second_try : Bool

/-- The PulseAudio per-user socket path, an f-string over the uid. -/
def pulseSocketPath (uid : Nat) : String :=
  "/run/user/" ++ Nat.repr uid ++ "/pulse/native"

/-- The namespace-unshare flag list, plus the share-net flag when
networking is enabled. -/
def unshareArgs (cfg : Config) : List String :=
  if cfg.network then ["--unshare-user", "--unshare-all", "--share-net"]
  else ["--unshare-user", "--unshare-all"]

/-- The baseline `mount_tasks` list (source lines 203-217). -/
def baseMountTasks (my_home : String) : List MountTask :=
  [MountTask.mk MountMode.TMPFS "/" none true,
   MountTask.mk MountMode.BIND_RO "/bin" none true,
   MountTask.mk MountMode.DEVTMPFS "/dev" none true,
   MountTask.mk MountMode.BIND_DEV "/dev/dri" none true,
   MountTask.mk MountMode.BIND_RO "/etc" none true,
   MountTask.mk MountMode.BIND_RO "/lib" none true,
   MountTask.mk MountMode.BIND_RO "/lib32" none false,
   MountTask.mk MountMode.BIND_RO "/lib64" none true,
   MountTask.mk MountMode.PROC "/proc" none true,
   MountTask.mk MountMode.BIND_RO "/sys" none true,
   MountTask.mk MountMode.TMPFS "/tmp" none true,
   MountTask.mk MountMode.BIND_RO "/usr" none true,
   MountTask.mk MountMode.TMPFS my_home none true]

/-- The `env_tasks` dict of `create_bwrap_argv` just before the `${PATH}`
entry is assigned.  The source interleaves these assignments with the
mount-task accumulation; they are data-independent from it, so they are
collected here in the assignment order of the source (dict order is insertion
order; rendering later sorts by name anyway). -/
def envPlan (host : Host) (cfg : Config) : List (String × Option String) :=
  let envs0 : List (String × Option String) :=
    [("HOME", none), ("TERM", none), ("USER", none), ("WINEDEBUG", none)]
  let envs1 := dictInsert envs0 "container" (some "sandwine")
  let envs2 := dictInsert envs1 "HOSTNAME" (some host.hostname)
  let envs3 :=
    if cfg.pulseaudio then
      dictInsert envs2 "PULSE_SERVER" (some ("unix:" ++ pulseSocketPath host.uid))
    else envs2
  let envs4 :=
    if cfg.x11 then
      dictInsert envs3 "DISPLAY" (some (":" ++ Nat.repr cfg.x11_display_number))
    else envs3
  envs4

/-- Mount tasks accumulated before the profile-directory step: baseline,
resolver files when networking, the PulseAudio socket, the X11 socket
(source lines 203-251; interleaved env assignments live in `envPlan`). -/
def mountsBeforeDotwine (host : Host) (cfg : Config) : List MountTask :=
  let mounts0 := baseMountTasks host.home
  let mounts1 :=
    if cfg.network then mounts0 ++
      [MountTask.mk MountMode.BIND_RO "/run/NetworkManager/resolv.conf" none false,
       MountTask.mk MountMode.BIND_RO "/run/systemd/resolve/stub-resolv.conf" none false]
    else mounts0
  let mounts2 :=
    if cfg.pulseaudio then
      mounts1 ++ [MountTask.mk MountMode.BIND_RW (pulseSocketPath host.uid) none true]
    else mounts1
  if cfg.x11 then
    mounts2 ++ [MountTask.mk MountMode.BIND_RW (host.x11Socket cfg.x11_display_number) none true]
  else mounts2

/-- The profile-directory (`--dotwine`) step, source lines 254-266:
`run_winecfg` starts as display-enabled ∧ (explicit `--configure` ∨ no
`--dotwine`); an explicit profile path is parsed (a `ValueError`, modelled
as `Except.error 1`, aborts), bound at `~/.wine`, and — when missing on
the host — created via `os.makedirs` (recorded) while forcing
`run_winecfg`; without `--dotwine` a tmpfs is mounted at `~/.wine`.
Returns (mount list so far, run_winecfg, created directories). -/
def dotwineStep (host : Host) (cfg : Config) :
    Except Nat (List MountTask × Bool × List String) :=
  let run_winecfg0 := cfg.x11 && (cfg.configure || cfg.dotwine.isNone)
  let dotwine_target_path := host.home ++ "/.wine"
  match cfg.dotwine with
  | some dw =>
    match parse_path_colon_access dw with
    | none => Except.error 1
    | some (src, acc) =>
      let mount_mode :=
        if acc = AccessMode.READ_WRITE then MountMode.BIND_RW else MountMode.BIND_RO
      let ms := mountsBeforeDotwine host cfg ++
        [MountTask.mk mount_mode dotwine_target_path (some src) true]
      if host.pathExists src then Except.ok (ms, run_winecfg0, ([] : List String))
      else Except.ok (ms, true, [src])
  | none =>
    Except.ok (mountsBeforeDotwine host cfg ++
        [MountTask.mk MountMode.TMPFS dotwine_target_path none true],
      run_winecfg0, ([] : List String))

/-- The `--pass` extra binds, source lines 269-272 (a malformed token
raises, modelled as `Except.error 1`). -/
def extraBindTasks (host : Host) (cfg : Config) : Except Nat (List MountTask) :=
  cfg.extra_binds.mapM (fun bind =>
    match parse_path_colon_access bind with
    | none => Except.error 1
    | some (tgt, acc) =>
      Except.ok (MountTask.mk
        (if acc = AccessMode.READ_WRITE then MountMode.BIND_RW else MountMode.BIND_RO)
        (host.abspath tgt) none true))

/-- Program-binary exposure, source lines 275-281: when the program
argument contains a path separator, optional read-only binds of its
absolute path and the `.exe` / `.EXE` variants. -/
def programBindTasks (host : Host) (cfg : Config) : List MountTask :=
  match cfg.argv_0 with
  | some a0 =>
    if a0.data.contains '/' then
      [MountTask.mk MountMode.BIND_RO (host.abspath a0) none false,
       MountTask.mk MountMode.BIND_RO (host.abspath a0 ++ ".exe") none false,
       MountTask.mk MountMode.BIND_RO (host.abspath a0 ++ ".EXE") none false]
    else []
  | none => []

/-- The mount-task accumulation of `create_bwrap_argv` (source lines
203-281): the pre-profile tasks and `--dotwine` step, then the `--pass`
extra binds, then the program-binary exposure.  Returns the final
unsorted mount list, the `run_winecfg` flag, and the directories created
for a missing `--dotwine` path. -/
def mountPlanResult (host : Host) (cfg : Config) :
    Except Nat (List MountTask × Bool × List String) := do
  let (mounts4, run_winecfg, createdDirs) ← dotwineStep host cfg
  let extra ← extraBindTasks host cfg
  pure (mounts4 ++ extra ++ programBindTasks host cfg, run_winecfg, createdDirs)

/-- Existence as observed by the mount-rendering loop, AFTER
`os.makedirs` ran for a missing `--dotwine` path: `makedirs(d)` creates
`d` and all its missing ancestors, so every ancestor-or-self of a created
directory now exists. -/
def existsAfterCreate (ex : String → Bool) (created : List String) (p : String) : Bool :=
  ex p || created.any (fun d =>
    strStartsWith (single_trailing_sep d) (single_trailing_sep p))

/-- The display-socket exemption of the missing-source check:
`X11Mode(config.x11) != X11Mode.NONE and mount_task.target == x11_unix_socket`. -/
def x11Exempt (host : Host) (cfg : Config) : String → Bool :=
  fun target => cfg.x11 && (target == host.x11Socket cfg.x11_display_number)

def squote : Char := Char.ofNat 39

/-- The character class of the Python source `shlex._find_unsafe` complement:
ASCII letters, digits, underscore, and `@ % + = : , .` slash dash. -/
def shlexSafeChar (c : Char) : Bool :=
  c.isAlphanum || c == '_' || c == '@' || c == '%' || c == '+' || c == '=' ||
    c == ':' || c == ',' || c == '.' || c == '/' || c == '-'

/-- the Python source `shlex.quote`. -/
def shlexQuote (s : String) : String :=
  if s = "" then String.mk [squote, squote]
  else if s.data.all shlexSafeChar then s
  else String.mk ([squote] ++
    (s.data.map (fun c =>
      if c == squote then [squote, '"', squote, '"', squote] else [c])).flatten
    ++ [squote])

/-- the Python source `shlex.join`. -/
def shlexJoin (args : List String) : String := joinWith " " (args.map shlexQuote)

/-- The wineserver lifecycle wrapper shell fragment (source line 335). -/
def wineserverScript : String :=
  "wineserver -p0 && \"$0\" \"$@\" ; ret=$? ; wineserver -k ; exit $\x7bret\x7d"

/-- The one-time winecfg setup-gate wrapper shell fragment (source line 339). -/
def winecfgScript : String := "winecfg && exec \"$0\" \"$@\""

/-- The retry wrapper shell fragment (source line 343). -/
def secondTryScript : String := "\"$0\" \"$@\" || exec \"$0\" \"$@\""

/-- The wrapper-fragment groups appended after `--` (source lines
334-343): wineserver wrapper when Wine is in use, the winecfg setup gate
when `run_winecfg` and Wine is in use, the second-try wrapper on request. -/
def wrapperGroups (cfg : Config) (run_winecfg : Bool) : List (List String) :=
  (if cfg.with_wine then [["sh", "-c", wineserverScript]] else [])
  ++ (if run_winecfg && cfg.with_wine then [["sh", "-c", winecfgScript]] else [])
  ++ (if cfg.second_try then [["sh", "-c", secondTryScript]] else [])

/-- The innermost command group (source lines 346-355): the program under
Wine unless disabled, under `script` for PTY protection unless disabled,
or `true` when no program was given. -/
def innerGroup (cfg : Config) : List String :=
  match cfg.argv_0 with
  | some a0 =>
    let inner_argv := (if cfg.with_wine then ["wine", a0] else [a0]) ++ cfg.argv_1_plus
    if cfg.with_pty then
      ["script", "-e", "-q", "-c", "exec " ++ shlexJoin inner_argv, "/dev/null"]
    else inner_argv
  | none => ["true"]

/-- The result of `create_bwrap_argv`: the ordered argument groups of the
`ArgvBuilder` (all groups the builder adds are nonempty, so the
skip-empty behavior of `ArgvBuilder.add` never fires), plus the
directories created as a side effect. -/
structure BuildOut where
  groups : List (List String)
  createdDirs : List String
deriving DecidableEq, Repr

/-- Model of `create_bwrap_argv`: assemble the full ordered group list — executor
header and safety flags, hostname, namespace flags, the sorted rendered
mount stack, `--clearenv` and the sorted environment (including the
filtered `${PATH}` computed over the sorted, UNfiltered mount list), the
`--` separator, the wrapper fragments and the innermost command. -/
def create_bwrap_argv (host : Host) (cfg : Config) : Except Nat BuildOut := do
  let (mounts, run_winecfg, createdDirs) ← mountPlanResult host cfg
  let sorted_mount_tasks := sortTasks mounts
  let mountGroups ← renderMounts (existsAfterCreate host.pathExists createdDirs)
    (x11Exempt host cfg) sorted_mount_tasks
  let candidate_paths := splitChar ':' host.envPATH ++ ["/usr/lib/wine"]
  let available_paths := availablePaths host.realpath sorted_mount_tasks candidate_paths
  let env_final := dictInsert (envPlan host cfg) "PATH" (some (joinWith ":" available_paths))
  let envGroups := renderEnv host.environ (sortEnvPairs env_final)
  Except.ok
    { groups :=
        [["bwrap"], ["--disable-userns"], ["--die-with-parent"],
         ["--hostname", host.hostname], unshareArgs cfg]
        ++ mountGroups ++ [["--clearenv"]] ++ envGroups ++ [["--"]]
        ++ wrapperGroups cfg run_winecfg ++ [innerGroup cfg],
      createdDirs := createdDirs }

/-- The tail of the main function: build the argv, then hand the flattened vector to the
executor (`subprocess.call`).  Returns the exit code and whether the
executor was invoked; an abort during configuration resolution
(`Except.error`) exits with that code without invoking the executor. -/
def runMain (host : Host) (cfg : Config) (executor : List String → Nat) : Nat × Bool :=
  match create_bwrap_argv host cfg with
  | Except.error code => (code, false)
  | Except.ok out => (executor out.groups.flatten, true)

/-- The variable name of a rendered `--setenv` group. -/
def setenvName (g : List String) : String := (g.drop 1).headD ""

/-- The flag group of a non-bind task (tmpfs, devtmpfs, proc); the
catch-all `[]` on bind modes is never used. -/
def nonBindGroup (t : MountTask) : List String :=
  match t.mode with
  | MountMode.TMPFS => ["--tmpfs", t.target]
  | MountMode.DEVTMPFS => ["--dev", t.target]
  | MountMode.PROC => ["--proc", t.target]
  | _ => []

/-- The apply order described by the specification sentence, literally:
sort by the single-trailing-separator-NORMALIZED target.  The source
instead sorts by the raw target string; the two disagree (see the
corresponding counterexample). -/
def sortTasksNormalized (l : List MountTask) : List MountTask :=
  pySorted (fun a b => strLtB (single_trailing_sep a.target) (single_trailing_sep b.target)) l

/-! ### Concrete hosts and configurations for counterexamples and witnesses -/

/-- Two tmpfs tasks whose raw-target order and normalized-target order
disagree: `"/a" < "/a!"` raw, but `"/a!/" < "/a/"` after normalization. -/
def normSortCexTasks : List MountTask :=
  [MountTask.mk MountMode.TMPFS "/a!" none true,
   MountTask.mk MountMode.TMPFS "/a" none true]

/-- A host whose `/lib32` does not exist and whose `${PATH}` has a single
entry below `/lib32`; canonicalization is the identity. -/
def exHostLib32 : Host :=
  { home := "/home/u", uid := 1000,
    pathExists := fun p => !(p == "/lib32"),
    realpath := fun p => p, abspath := fun p => p,
    environ := fun _ => none, envPATH := "/lib32/bin",
    x11Socket := fun _ => "/tmp/.X11-unix/X0", hostname := "0123456789ab" }

/-- The all-defaults configuration: no program, no display, no network, no
sound, tmpfs profile, no extra binds. -/
def exCfgPlain : Config :=
  { argv_0 := none, argv_1_plus := [], x11 := false, x11_display_number := 0,
    network := false, pulseaudio := false, dotwine := none, extra_binds := [],
    configure := false, with_pty := true, with_wine := true, second_try := false }

/-- A host on which every path exists except `/missing/d`. -/
def exHostDotwine : Host :=
  { home := "/home/u", uid := 1000,
    pathExists := fun p => !(p == "/missing/d"),
    realpath := fun p => p, abspath := fun p => p,
    environ := fun _ => none, envPATH := "/usr/bin",
    x11Socket := fun _ => "/tmp/.X11-unix/X0", hostname := "0123456789ab" }

/-- All defaults except `--dotwine /missing/d:rw`; display stays disabled. -/
def exCfgDotwine : Config :=
  { exCfgPlain with dotwine := some "/missing/d:rw" }

/-- All defaults except a malformed `--dotwine` value with no colon. -/
def exCfgBadDotwine : Config :=
  { exCfgPlain with dotwine := some "nocolon" }

/-- A benign host: every path exists and `WINEDEBUG=warn` is set. -/
def wHost : Host :=
  { home := "/home/u", uid := 1000,
    pathExists := fun _ => true,
    realpath := fun p => p, abspath := fun p => p,
    environ := fun k => if k = "WINEDEBUG" then some "warn" else none,
    envPATH := "/usr/bin",
    x11Socket := fun _ => "/tmp/.X11-unix/X0", hostname := "0123456789ab" }

/-- All defaults plus display enabled and explicit `--configure`. -/
def wCfgX11 : Config := { exCfgPlain with x11 := true, configure := true }

/-! ### Stable-sort lemmas -/

theorem insertSorted_perm (lt : α → α → Bool) (x : α) (l : List α) :
    (insertSorted lt x l).Perm (x :: l) := by
  induction l with
  | nil => exact List.Perm.refl _
  | cons y ys ih =>
    rw [insertSorted]
    by_cases h : lt y x = true
    · rw [if_pos h]
      exact (ih.cons y).trans (List.Perm.swap x y ys)
    · rw [if_neg h]

theorem pySorted_perm (lt : α → α → Bool) (l : List α) : (pySorted lt l).Perm l := by
  induction l with
  | nil => exact List.Perm.refl _
  | cons x xs ih =>
    exact (insertSorted_perm lt x (pySorted lt xs)).trans (ih.cons x)

theorem mem_insertSorted {lt : α → α → Bool} {x z : α} {l : List α}
    (h : z ∈ insertSorted lt x l) : z = x ∨ z ∈ l := by
  have := (insertSorted_perm lt x l).mem_iff.mp h
  simpa using this

theorem pairwise_insertSorted {lt : α → α → Bool}
    (hasym : ∀ a b, lt a b = true → lt b a = false)
    (htrans : ∀ a b c, lt a b = false → lt b c = false → lt a c = false)
    (x : α) :
    ∀ {l : List α}, l.Pairwise (fun a b => lt b a = false) →
      (insertSorted lt x l).Pairwise (fun a b => lt b a = false) := by
  intro l
  induction l with
  | nil => intro _; exact List.pairwise_singleton _ _
  | cons y ys ih =>
    intro hp
    rw [List.pairwise_cons] at hp
    obtain ⟨hy, hys⟩ := hp
    rw [insertSorted]
    by_cases h : lt y x = true
    · rw [if_pos h]
      rw [List.pairwise_cons]
      refine ⟨?_, ih hys⟩
      intro z hz
      rcases mem_insertSorted hz with rfl | hzys
      · exact hasym _ _ h
      · exact hy z hzys
    · rw [if_neg h]
      have hyx : lt y x = false := by
        cases hlt : lt y x
        · rfl
        · exact absurd hlt h
      rw [List.pairwise_cons]
      refine ⟨?_, List.pairwise_cons.mpr ⟨hy, hys⟩⟩
      intro z hz
      rcases List.mem_cons.mp hz with rfl | hzys
      · exact hyx
      · exact htrans z y x (hy z hzys) hyx

theorem pairwise_pySorted {lt : α → α → Bool}
    (hasym : ∀ a b, lt a b = true → lt b a = false)
    (htrans : ∀ a b c, lt a b = false → lt b c = false → lt a c = false)
    (l : List α) :
    (pySorted lt l).Pairwise (fun a b => lt b a = false) := by
  induction l with
  | nil => exact List.Pairwise.nil
  | cons x xs ih => exact pairwise_insertSorted hasym htrans x ih

theorem filter_insertSorted_neg {lt : α → α → Bool} {p : α → Bool} {x : α}
    (hx : p x = false) : ∀ l : List α, (insertSorted lt x l).filter p = l.filter p
  | [] => by simp [insertSorted, hx]
  | y :: ys => by
    rw [insertSorted]
    by_cases h : lt y x = true
    · rw [if_pos h]
      simp [List.filter_cons, filter_insertSorted_neg hx ys]
    · rw [if_neg h]
      simp [List.filter_cons, hx]

theorem filter_insertSorted_pos {lt : α → α → Bool} {p : α → Bool} {x : α}
    (hx : p x = true) (hlt : ∀ z, p z = true → lt z x = false) :
    ∀ l : List α, (insertSorted lt x l).filter p = x :: l.filter p
  | [] => by simp [insertSorted, hx]
  | y :: ys => by
    rw [insertSorted]
    by_cases h : lt y x = true
    · rw [if_pos h]
      have hpy : p y = false := by
        cases hp : p y
        · rfl
        · exact absurd h (by simp [hlt y hp])
      simp [List.filter_cons, hpy, filter_insertSorted_pos hx hlt ys]
    · rw [if_neg h]
      simp [List.filter_cons, hx]

theorem filter_pySorted {lt : α → α → Bool} {p : α → Bool}
    (hcomp : ∀ x z, p x = true → p z = true → lt z x = false) :
    ∀ l : List α, (pySorted lt l).filter p = l.filter p
  | [] => rfl
  | x :: xs => by
    rw [pySorted]
    by_cases hx : p x = true
    · rw [filter_insertSorted_pos hx (fun z hz => hcomp x z hx hz),
        filter_pySorted hcomp xs]
      simp [List.filter_cons, hx]
    · have hx' : p x = false := by
        cases hp : p x
        · rfl
        · exact absurd hp hx
      rw [filter_insertSorted_neg hx', filter_pySorted hcomp xs]
      simp [List.filter_cons, hx']

theorem lexLt_iff_lex : ∀ as bs : List Char, lexLt as bs = true ↔ List.Lex (· < ·) as bs
  | [], [] => by
    constructor
    · intro h
      exact Bool.noConfusion h
    · intro h
      nomatch h
  | [], b :: bs => by
    constructor
    · intro _
      exact List.Lex.nil
    · intro _
      rfl
  | a :: as, [] => by
    constructor
    · intro h
      exact Bool.noConfusion h
    · intro h
      nomatch h
  | a :: as, b :: bs => by
    rw [lexLt]
    by_cases hab : a.toNat < b.toNat
    · rw [if_pos hab]
      constructor
      · intro _
        exact List.Lex.rel hab
      · intro _
        rfl
    · rw [if_neg hab]
      by_cases hba : b.toNat < a.toNat
      · rw [if_pos hba]
        constructor
        · intro h
          exact Bool.noConfusion h
        · intro h
          cases h with
          | rel hr => exact absurd hr hab
          | cons _ => exact absurd hba (lt_irrefl _)
      · rw [if_neg hba]
        have hEq : a = b := by
          have hn : a.toNat = b.toNat := by omega
          exact Char.ext (UInt32.ext hn)
        subst hEq
        constructor
        · intro h
          exact List.Lex.cons ((lexLt_iff_lex as bs).mp h)
        · intro h
          cases h with
          | rel hr => exact absurd hr hab
          | cons htail => exact (lexLt_iff_lex as bs).mpr htail

theorem strLtB_iff (a b : String) : strLtB a b = true ↔ a < b :=
  (lexLt_iff_lex a.data b.data).trans String.lt_iff_toList_lt.symm

theorem strLtB_eq (a b : String) : strLtB a b = decide (a < b) := by
  by_cases h : a < b
  · rw [(strLtB_iff a b).mpr h, decide_eq_true h]
  · have h2 : strLtB a b = false := by
      cases hc : strLtB a b
      · rfl
      · exact absurd ((strLtB_iff a b).mp hc) h
    rw [h2, decide_eq_false h]

theorem taskLt_asym (a b : MountTask) : taskLt a b = true → taskLt b a = false := by
  simp only [taskLt, strLtB_eq, decide_eq_true_eq, decide_eq_false_iff_not]
  exact fun h => lt_asymm h

theorem taskLt_htrans (a b c : MountTask) :
    taskLt a b = false → taskLt b c = false → taskLt a c = false := by
  simp only [taskLt, strLtB_eq, decide_eq_false_iff_not, not_lt]
  exact fun h1 h2 => le_trans h2 h1

theorem envLt_asym (a b : String × Option String) : envLt a b = true → envLt b a = false := by
  simp only [envLt, strLtB_eq, decide_eq_true_eq, decide_eq_false_iff_not]
  exact fun h => lt_asymm h

theorem envLt_htrans (a b c : String × Option String) :
    envLt a b = false → envLt b c = false → envLt a c = false := by
  simp only [envLt, strLtB_eq, decide_eq_false_iff_not, not_lt]
  exact fun h1 h2 => le_trans h2 h1

theorem strLtB_irrefl (k : String) : strLtB k k = false := by
  rw [strLtB_eq, decide_eq_false_iff_not]
  exact lt_irrefl k

theorem sortTasks_perm (l : List MountTask) : (sortTasks l).Perm l := pySorted_perm _ l

theorem sortTasks_pairwise (l : List MountTask) :
    (sortTasks l).Pairwise (fun a b => a.target ≤ b.target) := by
  have h := pairwise_pySorted taskLt_asym taskLt_htrans l
  refine h.imp ?_
  intro a b hab
  rw [taskLt, strLtB_eq, decide_eq_false_iff_not] at hab
  exact not_lt.mp hab

theorem sortEnvPairs_perm (l : List (String × Option String)) :
    (sortEnvPairs l).Perm l := pySorted_perm _ l

theorem sortEnvPairs_pairwise (l : List (String × Option String)) :
    (sortEnvPairs l).Pairwise (fun a b => a.1 ≤ b.1) := by
  have h := pairwise_pySorted envLt_asym envLt_htrans l
  refine h.imp ?_
  intro a b hab
  rw [envLt, strLtB_eq, decide_eq_false_iff_not] at hab
  exact not_lt.mp hab

theorem sortTasks_eq_of_perm {l₁ l₂ : List MountTask} (hperm : l₁.Perm l₂)
    (hnd : (l₁.map MountTask.target).Nodup) : sortTasks l₁ = sortTasks l₂ := by
  have hp₁ := sortTasks_perm l₁
  have hp₂ := sortTasks_perm l₂
  have hperm' : (sortTasks l₁).Perm (sortTasks l₂) := hp₁.trans (hperm.trans hp₂.symm)
  have hnd₁ : ((sortTasks l₁).map MountTask.target).Nodup :=
    ((hp₁.map MountTask.target).symm).nodup hnd
  have hnd₂ : ((sortTasks l₂).map MountTask.target).Nodup :=
    ((hp₂.map MountTask.target).symm).nodup ((hperm.map MountTask.target).nodup hnd)
  have strict : ∀ (l : List MountTask), ((l.map MountTask.target).Nodup) →
      l.Pairwise (fun a b => a.target ≤ b.target) →
      l.Pairwise (fun a b : MountTask => a.target < b.target) := by
    intro l hl hle
    have hne : l.Pairwise (fun a b : MountTask => a.target ≠ b.target) :=
      List.pairwise_map.mp hl
    exact (hle.and hne).imp (fun h => lt_of_le_of_ne h.1 h.2)
  haveI : IsAntisymm MountTask (fun a b : MountTask => a.target < b.target) :=
    ⟨fun _ _ h1 h2 => ((lt_asymm h1) h2).elim⟩
  exact List.eq_of_perm_of_sorted hperm'
    (strict _ hnd₁ (sortTasks_pairwise l₁)) (strict _ hnd₂ (sortTasks_pairwise l₂))

theorem sortTasks_filter_target (l : List MountTask) (k : String) :
    (sortTasks l).filter (fun t => t.target == k) = l.filter (fun t => t.target == k) := by
  refine filter_pySorted ?_ l
  intro x z hx hz
  have hxk : x.target = k := by simpa using hx
  have hzk : z.target = k := by simpa using hz
  simp [taskLt, hxk, hzk, strLtB_irrefl]

/-! ### rsplit / parse lemmas -/

theorem rsplitLast_eq_none {sep : Char} :
    ∀ {l : List Char}, sep ∉ l → rsplitLast sep l = none
  | [], _ => rfl
  | c :: cs, h => by
    rw [rsplitLast, rsplitLast_eq_none (fun hm => h (List.mem_cons_of_mem c hm))]
    have hc : (c == sep) = false := by
      simp only [beq_eq_false_iff_ne, ne_eq]
      exact fun he => h (he ▸ List.mem_cons_self c cs)
    simp [hc]

theorem mem_of_rsplitLast_eq_some {sep : Char} :
    ∀ {l : List Char} {pr : List Char × List Char},
      rsplitLast sep l = some pr → sep ∈ l
  | c :: cs, pr, h => by
    rw [rsplitLast] at h
    cases hr : rsplitLast sep cs with
    | some q => exact List.mem_cons_of_mem c (mem_of_rsplitLast_eq_some hr)
    | none =>
      rw [hr] at h
      by_cases hc : (c == sep) = true
      · have : c = sep := by simpa using hc
        exact this ▸ List.mem_cons_self c cs
      · rw [if_neg hc] at h
        exact absurd h (by simp)

theorem rsplitLast_append {sep : Char} {t : List Char} (ht : sep ∉ t) :
    ∀ p : List Char, rsplitLast sep (p ++ sep :: t) = some (p, t)
  | [] => by
    rw [List.nil_append, rsplitLast, rsplitLast_eq_none ht]
    simp
  | c :: p' => by
    rw [List.cons_append, rsplitLast, rsplitLast_append ht p']

/-- Behavior of `parse_path_colon_access` on a string of the form `path ++ ":" ++ token`
with a colon-free token: splits exactly there and classifies the token. -/
theorem parse_append_token (p t : String) (ht : ':' ∉ t.data) :
    parse_path_colon_access (p ++ ":" ++ t) =
      (if t = "ro" then some (p, AccessMode.READ_ONLY)
       else if t = "rw" then some (p, AccessMode.READ_WRITE)
       else none) := by
  have hdata : (p ++ ":" ++ t).data = p.data ++ ':' :: t.data := by
    simp [String.data_append]
  have hsplit : rsplitLast ':' (p ++ ":" ++ t).data = some (p.data, t.data) := by
    rw [hdata]; exact rsplitLast_append ht p.data
  have hmem : ':' ∈ (p ++ ":" ++ t).data := mem_of_rsplitLast_eq_some hsplit
  rw [parse_path_colon_access, if_pos (by simp [hmem]), hsplit]
  by_cases h1 : t = "ro"
  · subst h1
    rfl
  · by_cases h2 : t = "rw"
    · subst h2
      rfl
    · have hne1 : t.data ≠ ['r', 'o'] := fun hh => h1 (String.ext hh)
      have hne2 : t.data ≠ ['r', 'w'] := fun hh => h2 (String.ext hh)
      simp [hne1, hne2, h1, h2]

theorem parse_ro (p : String) :
    parse_path_colon_access (p ++ ":ro") = some (p, AccessMode.READ_ONLY) := by
  have he : p ++ ":" ++ "ro" = p ++ ":ro" := by
    apply String.ext
    simp [String.data_append]
  have h := parse_append_token p "ro" (by decide)
  rw [he] at h
  simpa using h

theorem parse_rw (p : String) :
    parse_path_colon_access (p ++ ":rw") = some (p, AccessMode.READ_WRITE) := by
  have he : p ++ ":" ++ "rw" = p ++ ":rw" := by
    apply String.ext
    simp [String.data_append]
  have h := parse_append_token p "rw" (by decide)
  rw [he] at h
  simpa using h

/-- A candidate with no colon at all fails to parse. -/
theorem parse_no_colon {s : String} (h : ':' ∉ s.data) :
    parse_path_colon_access s = none := by
  rw [parse_path_colon_access, if_neg (by simpa using h)]

/-- A candidate whose trailing token is neither `"ro"` nor `"rw"` fails to
parse. -/
theorem parse_bad_token {s : String} {path tok : List Char}
    (hsplit : rsplitLast ':' s.data = some (path, tok))
    (h1 : tok ≠ ['r', 'o']) (h2 : tok ≠ ['r', 'w']) :
    parse_path_colon_access s = none := by
  have hmem : ':' ∈ s.data := mem_of_rsplitLast_eq_some hsplit
  rw [parse_path_colon_access, if_pos (by simpa using hmem), hsplit]
  simp [h1, h2]

/-! ### Mount-rendering lemmas -/

/-- When the loop does not abort, its output is exactly the per-task
`filterMap`. -/
theorem renderMounts_ok_eq (ex exempt : String → Bool) :
    ∀ {ts : List MountTask} {gs : List (List String)},
      renderMounts ex exempt ts = Except.ok gs →
      gs = ts.filterMap (renderTaskOpt ex exempt)
  | [], gs, h => by
    rw [renderMounts] at h
    cases h
    rfl
  | t :: rest, gs, h => by
    rw [renderMounts] at h
    rw [List.filterMap_cons]
    cases hm : t.mode with
    | TMPFS =>
      rw [hm] at h
      cases hr : renderMounts ex exempt rest with
      | error e => rw [hr] at h; exact absurd h (by simp [Except.map])
      | ok gs' =>
        rw [hr] at h
        have : gs = ["--tmpfs", t.target] :: gs' := by
          simpa [Except.map] using h.symm
        rw [this, renderTaskOpt, hm, renderMounts_ok_eq ex exempt hr]
    | DEVTMPFS =>
      rw [hm] at h
      cases hr : renderMounts ex exempt rest with
      | error e => rw [hr] at h; exact absurd h (by simp [Except.map])
      | ok gs' =>
        rw [hr] at h
        have : gs = ["--dev", t.target] :: gs' := by
          simpa [Except.map] using h.symm
        rw [this, renderTaskOpt, hm, renderMounts_ok_eq ex exempt hr]
    | PROC =>
      rw [hm] at h
      cases hr : renderMounts ex exempt rest with
      | error e => rw [hr] at h; exact absurd h (by simp [Except.map])
      | ok gs' =>
        rw [hr] at h
        have : gs = ["--proc", t.target] :: gs' := by
          simpa [Except.map] using h.symm
        rw [this, renderTaskOpt, hm, renderMounts_ok_eq ex exempt hr]
    | BIND_RO =>
      rw [hm] at h
      rw [renderTaskOpt, hm]
      by_cases hdrop : (!(ex (t.source.getD t.target)) && !(exempt t.target)) = true
      · rw [if_pos hdrop] at h
        rw [if_pos hdrop]
        by_cases hreq : t.required = true
        · rw [if_pos hreq] at h; exact absurd h (by simp)
        · rw [if_neg hreq] at h
          exact renderMounts_ok_eq ex exempt h
      · rw [if_neg hdrop] at h
        rw [if_neg hdrop]
        cases hr : renderMounts ex exempt rest with
        | error e => rw [hr] at h; exact absurd h (by simp [Except.map])
        | ok gs' =>
          rw [hr] at h
          have : gs = [bindFlag t.mode, t.source.getD t.target, t.target] :: gs' := by
            simpa [Except.map, hm] using h.symm
          rw [this, renderMounts_ok_eq ex exempt hr, hm]
    | BIND_RW =>
      rw [hm] at h
      rw [renderTaskOpt, hm]
      by_cases hdrop : (!(ex (t.source.getD t.target)) && !(exempt t.target)) = true
      · rw [if_pos hdrop] at h
        rw [if_pos hdrop]
        by_cases hreq : t.required = true
        · rw [if_pos hreq] at h; exact absurd h (by simp)
        · rw [if_neg hreq] at h
          exact renderMounts_ok_eq ex exempt h
      · rw [if_neg hdrop] at h
        rw [if_neg hdrop]
        cases hr : renderMounts ex exempt rest with
        | error e => rw [hr] at h; exact absurd h (by simp [Except.map])
        | ok gs' =>
          rw [hr] at h
          have : gs = [bindFlag t.mode, t.source.getD t.target, t.target] :: gs' := by
            simpa [Except.map, hm] using h.symm
          rw [this, renderMounts_ok_eq ex exempt hr, hm]
    | BIND_DEV =>
      rw [hm] at h
      rw [renderTaskOpt, hm]
      by_cases hdrop : (!(ex (t.source.getD t.target)) && !(exempt t.target)) = true
      · rw [if_pos hdrop] at h
        rw [if_pos hdrop]
        by_cases hreq : t.required = true
        · rw [if_pos hreq] at h; exact absurd h (by simp)
        · rw [if_neg hreq] at h
          exact renderMounts_ok_eq ex exempt h
      · rw [if_neg hdrop] at h
        rw [if_neg hdrop]
        cases hr : renderMounts ex exempt rest with
        | error e => rw [hr] at h; exact absurd h (by simp [Except.map])
        | ok gs' =>
          rw [hr] at h
          have : gs = [bindFlag t.mode, t.source.getD t.target, t.target] :: gs' := by
            simpa [Except.map, hm] using h.symm
          rw [this, renderMounts_ok_eq ex exempt hr, hm]

/-! ### Environment-plan lemmas -/

theorem dictInsert_of_fresh {l : List (String × Option String)} {k : String}
    (h : ∀ p ∈ l, p.1 ≠ k) (v : Option String) :
    dictInsert l k v = l ++ [(k, v)] := by
  induction l with
  | nil => rfl
  | cons p rest ih =>
    rw [dictInsert, if_neg (h p (List.mem_cons_self p rest)), List.cons_append,
      ih (fun q hq => h q (List.mem_cons_of_mem p hq))]

theorem envPlan_eq (host : Host) (cfg : Config) :
    envPlan host cfg =
      [("HOME", none), ("TERM", none), ("USER", none), ("WINEDEBUG", none),
       ("container", some "sandwine"), ("HOSTNAME", some host.hostname)]
      ++ (if cfg.pulseaudio then
            [("PULSE_SERVER", some ("unix:" ++ pulseSocketPath host.uid))] else [])
      ++ (if cfg.x11 then
            [("DISPLAY", some (":" ++ Nat.repr cfg.x11_display_number))] else []) := by
  cases hp : cfg.pulseaudio <;> cases hx : cfg.x11 <;>
    simp [envPlan, hp, hx, dictInsert]

theorem envPlan_entry (host : Host) (cfg : Config) :
    ∀ p ∈ envPlan host cfg, p.1 ≠ "PATH" ∧ (p.1 = "WINEDEBUG" → p.2 = none) := by
  intro p hp
  rw [envPlan_eq] at hp
  have hbase : ∀ q ∈ ([("HOME", (none : Option String)), ("TERM", none), ("USER", none),
      ("WINEDEBUG", none), ("container", some "sandwine"),
      ("HOSTNAME", some host.hostname)] : List (String × Option String)),
      q.1 ≠ "PATH" ∧ (q.1 = "WINEDEBUG" → q.2 = none) := by
    intro q hq
    fin_cases hq <;> simp
  rcases List.mem_append.mp hp with h | h
  · rcases List.mem_append.mp h with h2 | h2
    · exact hbase p h2
    · by_cases hpa : cfg.pulseaudio = true
      · rw [if_pos hpa] at h2
        fin_cases h2
        simp
      · rw [if_neg hpa] at h2
        exact absurd h2 (List.not_mem_nil p)
  · by_cases hx : cfg.x11 = true
    · rw [if_pos hx] at h
      fin_cases h
      simp
    · rw [if_neg hx] at h
      exact absurd h (List.not_mem_nil p)

theorem envFull_eq (host : Host) (cfg : Config) (v : String) :
    dictInsert (envPlan host cfg) "PATH" (some v) = envPlan host cfg ++ [("PATH", some v)] :=
  dictInsert_of_fresh (fun p hp => (envPlan_entry host cfg p hp).1) _

theorem winedebug_mem_envFull (host : Host) (cfg : Config) (v : String) :
    ("WINEDEBUG", (none : Option String)) ∈ dictInsert (envPlan host cfg) "PATH" (some v) := by
  rw [envFull_eq, envPlan_eq]
  simp

theorem envFull_entry (host : Host) (cfg : Config) (v : String) :
    ∀ p ∈ dictInsert (envPlan host cfg) "PATH" (some v),
      p.1 = "WINEDEBUG" → p.2 = none := by
  intro p hp hk
  rw [envFull_eq] at hp
  rcases List.mem_append.mp hp with h | h
  · exact (envPlan_entry host cfg p h).2 hk
  · rw [List.mem_singleton] at h
    subst h
    simp at hk

theorem envFull_keys_nodup (host : Host) (cfg : Config) (v : String) :
    ((dictInsert (envPlan host cfg) "PATH" (some v)).map Prod.fst).Nodup := by
  rw [envFull_eq, envPlan_eq]
  cases hpa : cfg.pulseaudio <;> cases hx : cfg.x11 <;> simp

theorem envGroup_name {environ : String → Option String} {p : String × Option String}
    {g : List String} (h : envGroup environ p = some g) :
    ∃ v, g = ["--setenv", p.1, v] := by
  rw [envGroup] at h
  cases hp2 : p.2 with
  | some v =>
    rw [hp2] at h
    exact ⟨v, (Option.some.inj h).symm⟩
  | none =>
    rw [hp2] at h
    cases he : environ p.1 with
    | some v =>
      rw [he] at h
      exact ⟨v, (Option.some.inj h).symm⟩
    | none =>
      rw [he] at h
      exact absurd h (by simp)

theorem setenvName_of_envGroup {environ : String → Option String}
    {p : String × Option String} {g : List String}
    (h : envGroup environ p = some g) : setenvName g = p.1 := by
  obtain ⟨v, rfl⟩ := envGroup_name h
  rfl

theorem pairwise_renderEnv {R : String → String → Prop} {environ : String → Option String} :
    ∀ {pairs : List (String × Option String)},
      pairs.Pairwise (fun p q => R p.1 q.1) →
      (renderEnv environ pairs).Pairwise (fun g h => R (setenvName g) (setenvName h))
  | [], _ => List.Pairwise.nil
  | p :: rest, hp => by
    rw [List.pairwise_cons] at hp
    obtain ⟨hhead, htail⟩ := hp
    rw [renderEnv, List.filterMap_cons]
    cases hg : envGroup environ p with
    | none => exact pairwise_renderEnv htail
    | some g =>
      rw [List.pairwise_cons]
      refine ⟨?_, pairwise_renderEnv htail⟩
      intro g' hg'
      obtain ⟨q, hq, hq2⟩ := List.mem_filterMap.mp hg'
      rw [setenvName_of_envGroup hg, setenvName_of_envGroup hq2]
      exact hhead q hq

/-! ### Render-loop structure lemmas -/

theorem except_ok_bind {α β : Type} (a : α) (f : α → Except Nat β) :
    ((Except.ok a : Except Nat α) >>= f) = f a := rfl

theorem except_error_bind {α β : Type} (e : Nat) (f : α → Except Nat β) :
    ((Except.error e : Except Nat α) >>= f) = Except.error e := rfl

theorem except_bind_ok {α β : Type} {x : Except Nat α} {f : α → Except Nat β} {b : β}
    (h : (x >>= f) = Except.ok b) : ∃ a, x = Except.ok a ∧ f a = Except.ok b := by
  cases hx : x with
  | error e =>
    rw [hx, except_error_bind] at h
    exact absurd h (by simp)
  | ok a =>
    rw [hx, except_ok_bind] at h
    exact ⟨a, rfl, h⟩

theorem renderTaskOpt_bind {ex exempt : String → Bool} {t : MountTask}
    (hbind : isBindMode t.mode = true) :
    renderTaskOpt ex exempt t =
      (if !(ex (t.source.getD t.target)) && !(exempt t.target) then none
       else some [bindFlag t.mode, t.source.getD t.target, t.target]) := by
  cases hm : t.mode <;>
    first
      | (rw [hm] at hbind; exact absurd hbind (by decide))
      | (rw [renderTaskOpt, hm])

theorem renderMounts_cons_bind {ex exempt : String → Bool} {t : MountTask}
    (hbind : isBindMode t.mode = true) (rest : List MountTask) :
    renderMounts ex exempt (t :: rest) =
      (if !(ex (t.source.getD t.target)) && !(exempt t.target) then
        (if t.required then Except.error 1 else renderMounts ex exempt rest)
      else
        (renderMounts ex exempt rest).map
          (fun gs => [bindFlag t.mode, t.source.getD t.target, t.target] :: gs)) := by
  cases hm : t.mode <;>
    first
      | (rw [hm] at hbind; exact absurd hbind (by decide))
      | (rw [renderMounts, hm])

theorem renderMounts_cons_nonbind {ex exempt : String → Bool} {t : MountTask}
    (hnb : isBindMode t.mode = false) (rest : List MountTask) :
    renderMounts ex exempt (t :: rest) =
      (renderMounts ex exempt rest).map (fun gs => nonBindGroup t :: gs) := by
  cases hm : t.mode <;>
    first
      | (rw [hm] at hnb; exact absurd hnb (by decide))
      | (simp only [renderMounts, nonBindGroup, hm])

theorem renderTaskOpt_nonbind {ex exempt : String → Bool} {t : MountTask}
    (hnb : isBindMode t.mode = false) :
    renderTaskOpt ex exempt t = some (nonBindGroup t) := by
  cases hm : t.mode <;>
    first
      | (rw [hm] at hnb; exact absurd hnb (by decide))
      | (simp only [renderTaskOpt, nonBindGroup, hm])

/-- One-step unfolding of the loop, keyed on the contributed group of the
task and its `required` flag. -/
theorem renderMounts_cons_eq (ex exempt : String → Bool) (q : MountTask) (l : List MountTask) :
    renderMounts ex exempt (q :: l) =
      (match renderTaskOpt ex exempt q, q.required with
       | some g, _ => (renderMounts ex exempt l).map (fun gs => g :: gs)
       | none, true => Except.error 1
       | none, false => renderMounts ex exempt l) := by
  by_cases hb : isBindMode q.mode = true
  · rw [renderMounts_cons_bind hb, renderTaskOpt_bind hb]
    by_cases hdrop : (!(ex (q.source.getD q.target)) && !(exempt q.target)) = true
    · rw [if_pos hdrop, if_pos hdrop]
      cases hreq : q.required <;> rfl
    · rw [if_neg hdrop, if_neg hdrop]
  · have hnb : isBindMode q.mode = false := by
      cases hc : isBindMode q.mode
      · rfl
      · exact absurd hc hb
    rw [renderMounts_cons_nonbind hnb, renderTaskOpt_nonbind hnb]

theorem renderMounts_append_congr {ex exempt : String → Bool} {l₁ l₂ : List MountTask}
    (h : renderMounts ex exempt l₁ = renderMounts ex exempt l₂) :
    ∀ pre : List MountTask,
      renderMounts ex exempt (pre ++ l₁) = renderMounts ex exempt (pre ++ l₂)
  | [] => h
  | q :: pre' => by
    rw [List.cons_append, List.cons_append, renderMounts_cons_eq, renderMounts_cons_eq,
      renderMounts_append_congr h pre']

theorem renderMounts_append_error {ex exempt : String → Bool} {l : List MountTask}
    (hl : renderMounts ex exempt l = Except.error 1) :
    ∀ (pre : List MountTask) (gs : List (List String)),
      renderMounts ex exempt pre = Except.ok gs →
      renderMounts ex exempt (pre ++ l) = Except.error 1
  | [], _, _ => by rw [List.nil_append]; exact hl
  | q :: pre', gs, hok => by
    rw [List.cons_append, renderMounts_cons_eq]
    rw [renderMounts_cons_eq] at hok
    cases hro : renderTaskOpt ex exempt q with
    | some g =>
      rw [hro] at hok
      cases hp : renderMounts ex exempt pre' with
      | error e =>
        rw [hp] at hok
        simp [Except.map] at hok
      | ok gs' =>
        rw [renderMounts_append_error hl pre' gs' hp]
        rfl
    | none =>
      rw [hro] at hok
      cases hreq : q.required
      · first
          | exact renderMounts_append_error hl pre' gs hok
          | (rw [hreq] at hok; exact renderMounts_append_error hl pre' gs hok)
      · rfl

theorem renderTaskOpt_none {ex exempt : String → Bool} {t : MountTask}
    (h : renderTaskOpt ex exempt t = none) :
    isBindMode t.mode = true ∧ ex (t.source.getD t.target) = false ∧
      exempt t.target = false := by
  by_cases hb : isBindMode t.mode = true
  · rw [renderTaskOpt_bind hb] at h
    by_cases hdrop : (!(ex (t.source.getD t.target)) && !(exempt t.target)) = true
    · obtain ⟨h1, h2⟩ := Bool.and_eq_true_iff.mp hdrop
      exact ⟨hb, by simpa using h1, by simpa using h2⟩
    · rw [if_neg hdrop] at h
      exact absurd h (by simp)
  · have hnb : isBindMode t.mode = false := by
      cases hc : isBindMode t.mode
      · rfl
      · exact absurd hc hb
    rw [renderTaskOpt_nonbind hnb] at h
    exact absurd h (by simp)

/-! ### Builder plumbing lemmas -/

theorem dotwineStep_error_of_parse {host : Host} {cfg : Config} {s : String}
    (hdw : cfg.dotwine = some s) (hp : parse_path_colon_access s = none) :
    dotwineStep host cfg = Except.error 1 := by
  rw [dotwineStep]
  simp [hdw, hp]

theorem mountPlanResult_error_of_dotwine {host : Host} {cfg : Config} {s : String}
    (hdw : cfg.dotwine = some s) (hp : parse_path_colon_access s = none) :
    mountPlanResult host cfg = Except.error 1 := by
  rw [mountPlanResult, dotwineStep_error_of_parse hdw hp, except_error_bind]

theorem create_error_of_mountPlan {host : Host} {cfg : Config} {e : Nat}
    (h : mountPlanResult host cfg = Except.error e) :
    create_bwrap_argv host cfg = Except.error e := by
  rw [create_bwrap_argv, h, except_error_bind]

theorem create_error_of_render {host : Host} {cfg : Config}
    {m : List MountTask} {rwc : Bool} {cd : List String} {e : Nat}
    (h : mountPlanResult host cfg = Except.ok (m, rwc, cd))
    (hr : renderMounts (existsAfterCreate host.pathExists cd) (x11Exempt host cfg)
      (sortTasks m) = Except.error e) :
    create_bwrap_argv host cfg = Except.error e := by
  rw [create_bwrap_argv, h, except_ok_bind]
  simp [hr, except_error_bind]

/-! ### Claims -/

/-- C3: a bind-type mount task in the processed list whose source is
missing on the host and which is not the display-socket exemption: when
`required` the whole run aborts with exit code 1 and the executor is
never invoked; when optional the task contributes no flag group and
processing continues with the remaining tasks. -/
theorem C3_missing_source_policy :
    ∀ (ex exempt : String → Bool) (pre post : List MountTask) (t : MountTask),
      isBindMode t.mode = true →
      ex (t.source.getD t.target) = false →
      exempt t.target = false →
      ((t.required = true → ∀ gs, renderMounts ex exempt pre = Except.ok gs →
          renderMounts ex exempt (pre ++ t :: post) = Except.error 1)
       ∧ (t.required = false →
          renderMounts ex exempt (pre ++ t :: post) = renderMounts ex exempt (pre ++ post))
       ∧ (∀ (host : Host) (cfg : Config) (m : List MountTask) (rwc : Bool)
            (cd : List String) (exec : List String → Nat),
          mountPlanResult host cfg = Except.ok (m, rwc, cd) →
          renderMounts (existsAfterCreate host.pathExists cd) (x11Exempt host cfg)
            (sortTasks m) = Except.error 1 →
          create_bwrap_argv host cfg = Except.error 1 ∧
            runMain host cfg exec = (1, false))) := by
  intro ex exempt pre post t hbind hmiss hexe
  refine ⟨?_, ?_, ?_⟩
  · intro hreq gs hok
    have hl : renderMounts ex exempt (t :: post) = Except.error 1 := by
      rw [renderMounts_cons_bind hbind, if_pos (by simp [hmiss, hexe]), if_pos hreq]
    exact renderMounts_append_error hl pre gs hok
  · intro hreq
    have hl : renderMounts ex exempt (t :: post) = renderMounts ex exempt post := by
      rw [renderMounts_cons_bind hbind, if_pos (by simp [hmiss, hexe]),
        if_neg (by simp [hreq])]
    exact renderMounts_append_congr hl pre
  · intro host cfg m rwc cd exec hmp hrender
    have hc : create_bwrap_argv host cfg = Except.error 1 :=
      create_error_of_render hmp hrender
    exact ⟨hc, by rw [runMain, hc]⟩

theorem C3_missing_source_policy_witness :
    renderMounts (fun _ => false) (fun _ => false)
      [MountTask.mk MountMode.BIND_RO "/x" none true] = Except.error 1 :=
  (C3_missing_source_policy (fun _ => false) (fun _ => false) [] []
    (MountTask.mk MountMode.BIND_RO "/x" none true) rfl rfl rfl).1 rfl [] rfl

/-- C9: every non-bind task (tmpfs, device-tmpfs, process-info) is
rendered unconditionally — its flag group is emitted for every host
existence predicate and regardless of its `required` flag — and only a
bind-type task can be dropped or cause the abort. -/
theorem C9_non_bind_always_rendered :
    (∀ (ex exempt : String → Bool) (t : MountTask) (rest : List MountTask),
      isBindMode t.mode = false →
      renderMounts ex exempt (t :: rest) =
        (renderMounts ex exempt rest).map (fun gs => nonBindGroup t :: gs))
    ∧ (∀ (ex exempt : String → Bool) (ts : List MountTask) (gs : List (List String))
        (t : MountTask), renderMounts ex exempt ts = Except.ok gs → t ∈ ts →
        isBindMode t.mode = false → nonBindGroup t ∈ gs)
    ∧ (∀ (ex exempt : String → Bool) (ts : List MountTask) (e : Nat),
        renderMounts ex exempt ts = Except.error e →
        ∃ t ∈ ts, isBindMode t.mode = true ∧ t.required = true ∧
          ex (t.source.getD t.target) = false ∧ exempt t.target = false) := by
  refine ⟨fun ex exempt t rest h => renderMounts_cons_nonbind h rest, ?_, ?_⟩
  · intro ex exempt ts gs t hok hmem hnb
    rw [renderMounts_ok_eq ex exempt hok]
    exact List.mem_filterMap.mpr ⟨t, hmem, renderTaskOpt_nonbind hnb⟩
  · intro ex exempt ts e herr
    induction ts with
    | nil =>
      rw [renderMounts] at herr
      exact absurd herr (by simp)
    | cons q rest ih =>
      rw [renderMounts_cons_eq] at herr
      cases hro : renderTaskOpt ex exempt q with
      | some g =>
        rw [hro] at herr
        cases hp : renderMounts ex exempt rest with
        | error e' =>
          rw [hp] at herr
          have he : e' = e := by simpa [Except.map] using herr
          subst he
          obtain ⟨t, hmem, ht⟩ := ih hp
          exact ⟨t, List.mem_cons_of_mem q hmem, ht⟩
        | ok gs =>
          rw [hp] at herr
          exact absurd herr (by simp [Except.map])
      | none =>
        rw [hro] at herr
        cases hreq : q.required <;> rw [hreq] at herr
        · obtain ⟨t, hmem, ht⟩ := ih herr
          exact ⟨t, List.mem_cons_of_mem q hmem, ht⟩
        · obtain ⟨hb, hmiss, hexe⟩ := renderTaskOpt_none hro
          exact ⟨q, List.mem_cons_self q rest, hb, hreq, hmiss, hexe⟩

theorem C9_non_bind_always_rendered_witness :
    renderMounts (fun _ => false) (fun _ => false)
      [MountTask.mk MountMode.TMPFS "/tmp" none true] =
      (renderMounts (fun _ => false) (fun _ => false) ([] : List MountTask)).map
        (fun gs => nonBindGroup (MountTask.mk MountMode.TMPFS "/tmp" none true) :: gs) :=
  C9_non_bind_always_rendered.1 (fun _ => false) (fun _ => false)
    (MountTask.mk MountMode.TMPFS "/tmp" none true) [] rfl

/-- C10: with two tasks of identical target in one plan, the sort is
stable — the sorted plan lists them in insertion order — and when both
survive the missing-source filter their two flag groups appear in the
rendered output in that same order. -/
theorem C10_duplicate_targets_stable :
    ∀ (ex exempt : String → Bool) (plan : List MountTask) (k : String)
      (t1 t2 : MountTask) (g1 g2 : List String) (gs : List (List String)),
      plan.filter (fun t => t.target == k) = [t1, t2] →
      renderTaskOpt ex exempt t1 = some g1 →
      renderTaskOpt ex exempt t2 = some g2 →
      renderMounts ex exempt (sortTasks plan) = Except.ok gs →
      (sortTasks plan).filter (fun t => t.target == k) = [t1, t2] ∧
        [g1, g2].Sublist gs := by
  intro ex exempt plan k t1 t2 g1 g2 gs hfil h1 h2 hok
  have hsf : (sortTasks plan).filter (fun t => t.target == k) = [t1, t2] := by
    rw [sortTasks_filter_target, hfil]
  refine ⟨hsf, ?_⟩
  have hsub : [t1, t2].Sublist (sortTasks plan) := by
    have hfs := List.filter_sublist (p := fun t => t.target == k) (sortTasks plan)
    rw [hsf] at hfs
    exact hfs
  rw [renderMounts_ok_eq ex exempt hok]
  have hmapped := hsub.filterMap (renderTaskOpt ex exempt)
  simpa [List.filterMap_cons, h1, h2] using hmapped

theorem C10_duplicate_targets_stable_witness :
    (sortTasks [MountTask.mk MountMode.TMPFS "/x" none true,
                MountTask.mk MountMode.TMPFS "/x" none false]).filter
        (fun t => t.target == "/x") =
      [MountTask.mk MountMode.TMPFS "/x" none true,
       MountTask.mk MountMode.TMPFS "/x" none false] ∧
      [["--tmpfs", "/x"], ["--tmpfs", "/x"]].Sublist
        [["--tmpfs", "/x"], ["--tmpfs", "/x"]] :=
  C10_duplicate_targets_stable (fun _ => true) (fun _ => false)
    [MountTask.mk MountMode.TMPFS "/x" none true,
     MountTask.mk MountMode.TMPFS "/x" none false] "/x"
    (MountTask.mk MountMode.TMPFS "/x" none true)
    (MountTask.mk MountMode.TMPFS "/x" none false)
    ["--tmpfs", "/x"] ["--tmpfs", "/x"]
    [["--tmpfs", "/x"], ["--tmpfs", "/x"]]
    (by decide) rfl rfl rfl

theorem any_reverse_eq (l : List α) (p : α → Bool) : l.reverse.any p = l.any p := by
  cases h : l.any p
  · rw [List.any_eq_false] at h ⊢
    intro x hx
    exact h x (List.mem_reverse.mp hx)
  · rw [List.any_eq_true] at h ⊢
    obtain ⟨x, hx, hp⟩ := h
    exact ⟨x, List.mem_reverse.mpr hx, hp⟩

/-- C2 counterexample: the claim predicts apply order by NORMALIZED
(single-trailing-separator) target; the code sorts by the raw target.  On
targets `"/a"` and `"/a!"` the two orders differ: the code consumes
`"/a"` first, while normalization puts `"/a!/"` strictly before `"/a/"`. -/
theorem C2_sort_order_counterexample :
    (sortTasks normSortCexTasks).map MountTask.target = ["/a", "/a!"]
    ∧ (sortTasksNormalized normSortCexTasks).map MountTask.target = ["/a!", "/a"]
    ∧ strLtB (single_trailing_sep "/a!") (single_trailing_sep "/a") = true
    ∧ (["/a", "/a!"] : List String) ≠ ["/a!", "/a"] := by
  refine ⟨rfl, rfl, rfl, ?_⟩
  decide

/-- C2 (amended): the consumption order is the stable ascending
lexicographic order of the RAW target strings: the sorted plan is a
permutation of the input, pairwise ordered by `target ≤ target`; the
rendered flag groups follow exactly that order; and for plans with
pairwise-distinct targets the result is independent of insertion order. -/
theorem C2_sorted_by_raw_target :
    ∀ l : List MountTask,
      ((sortTasks l).Perm l)
      ∧ (sortTasks l).Pairwise (fun a b => a.target ≤ b.target)
      ∧ (∀ (ex exempt : String → Bool) (gs : List (List String)),
          renderMounts ex exempt (sortTasks l) = Except.ok gs →
          gs = (sortTasks l).filterMap (renderTaskOpt ex exempt))
      ∧ (∀ l', l.Perm l' → (l.map MountTask.target).Nodup → sortTasks l = sortTasks l') := by
  intro l
  exact ⟨sortTasks_perm l, sortTasks_pairwise l,
    fun ex exempt gs h => renderMounts_ok_eq ex exempt h,
    fun l' hp hnd => sortTasks_eq_of_perm hp hnd⟩

theorem C2_sorted_by_raw_target_witness :
    sortTasks [MountTask.mk MountMode.TMPFS "/b" none true,
               MountTask.mk MountMode.TMPFS "/a" none true] =
      sortTasks [MountTask.mk MountMode.TMPFS "/a" none true,
                 MountTask.mk MountMode.TMPFS "/b" none true] :=
  (C2_sorted_by_raw_target
      [MountTask.mk MountMode.TMPFS "/b" none true,
       MountTask.mk MountMode.TMPFS "/a" none true]).2.2.2
    [MountTask.mk MountMode.TMPFS "/a" none true,
     MountTask.mk MountMode.TMPFS "/b" none true]
    (List.Perm.swap (MountTask.mk MountMode.TMPFS "/a" none true)
      (MountTask.mk MountMode.TMPFS "/b" none true) [])
    (by decide)

/-- C6: surviving search-path candidates are canonicalized
(`os.path.realpath`) and kept in their original relative order (the
result is a sublist of the canonicalized candidates); with host search
path `[A, B]` where only `A` lands under a bind-type mount target, the
resolved search path is exactly `[realpath A]`. -/
theorem C6_search_path_resolution :
    ∀ (rp : String → String) (tasks : List MountTask) (cands : List String) (A B : String),
      tasks.any (fun t =>
        strStartsWith (single_trailing_sep (rp A)) (single_trailing_sep t.target)
          && isBindMode t.mode) = true →
      tasks.all (fun t =>
        !(strStartsWith (single_trailing_sep (rp B)) (single_trailing_sep t.target)
          && isBindMode t.mode)) = true →
      availablePaths rp tasks [A, B] = [rp A]
      ∧ (availablePaths rp tasks cands).Sublist (cands.map rp) := by
  intro rp tasks cands A B hA hB
  constructor
  · have hca : pathCovered tasks (rp A) = true := by
      rw [pathCovered, any_reverse_eq]
      exact hA
    have hcb : pathCovered tasks (rp B) = false := by
      rw [pathCovered, any_reverse_eq, List.any_eq_false]
      intro t ht
      have h2 := List.all_eq_true.mp hB t ht
      have h3 : strStartsWith (single_trailing_sep (rp B)) (single_trailing_sep t.target) = false
          ∨ isBindMode t.mode = false := by simpa using h2
      cases h3 with
      | inl h4 => simp [h4]
      | inr h4 => simp [h4]
    rw [availablePaths]
    simp [List.filter_cons, hca, hcb]
  · exact List.filter_sublist _

theorem C6_search_path_resolution_witness :
    availablePaths (fun p => p) [MountTask.mk MountMode.BIND_RO "/a" none true]
      ["/a/x", "/b"] = ["/a/x"] :=
  (C6_search_path_resolution (fun p => p)
      [MountTask.mk MountMode.BIND_RO "/a" none true] [] "/a/x" "/b"
      (by decide) (by decide)).1

/-- C1 counterexample: with `/lib32` missing on the host (so its optional
bind task is dropped from the rendered mount set) and host `${PATH}`
containing `/lib32/bin`, the resolved search path still KEEPS
`/lib32/bin`, although no bind-type task of the post-missing-source
filtering mount set contains it — the code filters `${PATH}` against the
sorted mount list from BEFORE the missing-source filtering, contradicting
the claim. -/
theorem C1_path_filter_counterexample :
    (mountPlanResult exHostLib32 exCfgPlain).map (fun r =>
      ((availablePaths exHostLib32.realpath (sortTasks r.1)
          (splitChar ':' exHostLib32.envPATH ++ ["/usr/lib/wine"])).contains "/lib32/bin")
      && ((keptMountTasks (existsAfterCreate exHostLib32.pathExists r.2.2)
            (x11Exempt exHostLib32 exCfgPlain) (sortTasks r.1)).all (fun t =>
          !(isBindMode t.mode
            && strStartsWith (single_trailing_sep "/lib32/bin")
                 (single_trailing_sep t.target)))))
      = Except.ok true := rfl

/-- C1 (amended): a canonicalized candidate is kept in the resolved
search-path value iff it is contained (single-trailing-separator prefix
comparison) under the target of some bind-type task of the sorted mount
list BEFORE missing-source filtering; tasks later dropped for a missing
source still count for containment. -/
theorem C1_path_filter_uses_unfiltered_tasks :
    ∀ (rp : String → String) (tasks : List MountTask) (cands : List String) (c : String),
      c ∈ availablePaths rp tasks cands ↔
        ((∃ a ∈ cands, rp a = c) ∧
         ∃ t ∈ tasks, isBindMode t.mode = true ∧
           strStartsWith (single_trailing_sep c) (single_trailing_sep t.target) = true) := by
  intro rp tasks cands c
  rw [availablePaths]
  constructor
  · intro h
    obtain ⟨hmem, hcov⟩ := List.mem_filter.mp h
    obtain ⟨a, ha, hac⟩ := List.mem_map.mp hmem
    refine ⟨⟨a, ha, hac⟩, ?_⟩
    rw [pathCovered, any_reverse_eq] at hcov
    obtain ⟨t, ht, hp⟩ := List.any_eq_true.mp hcov
    obtain ⟨hp1, hp2⟩ := Bool.and_eq_true_iff.mp hp
    exact ⟨t, ht, hp2, hp1⟩
  · rintro ⟨⟨a, ha, rfl⟩, t, ht, hb, hs⟩
    refine List.mem_filter.mpr ⟨List.mem_map.mpr ⟨a, ha, rfl⟩, ?_⟩
    rw [pathCovered, any_reverse_eq]
    exact List.any_eq_true.mpr ⟨t, ht, by simp [hs, hb]⟩

theorem C1_path_filter_witness :
    "/lib32/bin" ∈ availablePaths (fun p => p)
      [MountTask.mk MountMode.BIND_RO "/lib32" none false] ["/lib32/bin"] :=
  (C1_path_filter_uses_unfiltered_tasks (fun p => p)
      [MountTask.mk MountMode.BIND_RO "/lib32" none false] ["/lib32/bin"] "/lib32/bin").mpr
    ⟨⟨"/lib32/bin", by simp, rfl⟩,
     MountTask.mk MountMode.BIND_RO "/lib32" none false, by simp, rfl, rfl⟩

/-- C7: parsing a `PATH:{ro,rw}` argument succeeds with the path and
read-only mode for a trailing `:ro` token and with the path and
read-write mode for a trailing `:rw` token; it fails exactly when the
separator is missing or the trailing qualifier is neither `ro` nor `rw`;
and a malformed token makes the run abort as a fatal configuration error
with exit code 1. -/
theorem C7_parse_path_colon_access :
    ∀ (host : Host) (cfg : Config) (p s : String),
      (parse_path_colon_access (p ++ ":ro") = some (p, AccessMode.READ_ONLY))
      ∧ (parse_path_colon_access (p ++ ":rw") = some (p, AccessMode.READ_WRITE))
      ∧ (':' ∉ s.data → parse_path_colon_access s = none)
      ∧ (∀ path tok, rsplitLast ':' s.data = some (path, tok) →
          tok ≠ ['r', 'o'] → tok ≠ ['r', 'w'] → parse_path_colon_access s = none)
      ∧ (cfg.dotwine = some s → parse_path_colon_access s = none →
          create_bwrap_argv host cfg = Except.error 1) := by
  intro host cfg p s
  refine ⟨parse_ro p, parse_rw p, parse_no_colon,
    fun path tok h h1 h2 => parse_bad_token h h1 h2, ?_⟩
  intro hdw hp
  exact create_error_of_mountPlan (mountPlanResult_error_of_dotwine hdw hp)

theorem C7_parse_path_colon_access_witness :
    parse_path_colon_access ("/data" ++ ":ro") = some ("/data", AccessMode.READ_ONLY) ∧
      create_bwrap_argv exHostDotwine exCfgBadDotwine = Except.error 1 :=
  ⟨(C7_parse_path_colon_access exHostDotwine exCfgBadDotwine "/data" "nocolon").1,
   (C7_parse_path_colon_access exHostDotwine exCfgBadDotwine "/data" "nocolon").2.2.2.2
     rfl (by decide)⟩

/-- C8: `parse_path_colon_access` splits at the LAST colon of its input:
for every path `p` and colon-free trailing token `t` equal to `ro` or
`rw`, parsing `p ++ ":" ++ t` succeeds returning exactly `p` — so a path
itself containing colons is accepted, e.g. `"/a:rw:ro"` parses to path
`"/a:rw"` with read-only mode. -/
theorem C8_parse_splits_at_last_colon :
    ∀ (p t : String), ':' ∉ t.data →
      (t = "ro" → parse_path_colon_access (p ++ ":" ++ t) = some (p, AccessMode.READ_ONLY))
      ∧ (t = "rw" → parse_path_colon_access (p ++ ":" ++ t) = some (p, AccessMode.READ_WRITE))
      ∧ parse_path_colon_access "/a:rw:ro" = some ("/a:rw", AccessMode.READ_ONLY) := by
  intro p t ht
  refine ⟨?_, ?_, by decide⟩
  · intro h1
    subst h1
    rw [parse_append_token p "ro" ht]
    rfl
  · intro h2
    subst h2
    rw [parse_append_token p "rw" ht]
    rfl

theorem C8_parse_splits_at_last_colon_witness :
    parse_path_colon_access ("/a:rw" ++ ":" ++ "ro") = some ("/a:rw", AccessMode.READ_ONLY) :=
  (C8_parse_splits_at_last_colon "/a:rw" "ro" (by decide)).1 rfl

/-- C5: in the rendered environment plan the `--setenv` groups appear in
strictly ascending variable-name order (one group per variable); an
inherit-if-present variable such as `WINEDEBUG` that is unset on the host
contributes no group at all, and when it is set its exact host value is
emitted. -/
theorem C5_env_rendering :
    ∀ (host : Host) (cfg : Config) (pathVal : String),
      ((renderEnv host.environ
          (sortEnvPairs (dictInsert (envPlan host cfg) "PATH" (some pathVal)))).Pairwise
        (fun g h => setenvName g < setenvName h))
      ∧ (host.environ "WINEDEBUG" = none →
          ∀ g ∈ renderEnv host.environ
            (sortEnvPairs (dictInsert (envPlan host cfg) "PATH" (some pathVal))),
            setenvName g ≠ "WINEDEBUG")
      ∧ (∀ v, host.environ "WINEDEBUG" = some v →
          ["--setenv", "WINEDEBUG", v] ∈ renderEnv host.environ
            (sortEnvPairs (dictInsert (envPlan host cfg) "PATH" (some pathVal)))) := by
  intro host cfg pathVal
  refine ⟨?_, ?_, ?_⟩
  · have hle := sortEnvPairs_pairwise (dictInsert (envPlan host cfg) "PATH" (some pathVal))
    have hnd : ((sortEnvPairs (dictInsert (envPlan host cfg) "PATH" (some pathVal))).map
        Prod.fst).Nodup :=
      (((sortEnvPairs_perm _).map Prod.fst).symm).nodup (envFull_keys_nodup host cfg pathVal)
    have hne : (sortEnvPairs (dictInsert (envPlan host cfg) "PATH" (some pathVal))).Pairwise
        (fun p q => p.1 ≠ q.1) := List.pairwise_map.mp hnd
    exact pairwise_renderEnv ((hle.and hne).imp (fun h => lt_of_le_of_ne h.1 h.2))
  · intro hnone g hg hk
    obtain ⟨q, hq, hq2⟩ := List.mem_filterMap.mp hg
    have hkq : q.1 = "WINEDEBUG" := by
      rw [← setenvName_of_envGroup hq2]
      exact hk
    have hqL : q ∈ dictInsert (envPlan host cfg) "PATH" (some pathVal) :=
      (sortEnvPairs_perm _).mem_iff.mp hq
    have h2 : q.2 = none := envFull_entry host cfg pathVal q hqL hkq
    simp [envGroup, h2, hkq, hnone] at hq2
  · intro v hv
    have hmem : ("WINEDEBUG", (none : Option String)) ∈
        sortEnvPairs (dictInsert (envPlan host cfg) "PATH" (some pathVal)) :=
      (sortEnvPairs_perm _).mem_iff.mpr (winedebug_mem_envFull host cfg pathVal)
    refine List.mem_filterMap.mpr ⟨("WINEDEBUG", none), hmem, ?_⟩
    simp [envGroup, hv]

theorem C5_env_rendering_witness :
    ["--setenv", "WINEDEBUG", "warn"] ∈ renderEnv wHost.environ
      (sortEnvPairs (dictInsert (envPlan wHost exCfgPlain) "PATH" (some "/usr/bin"))) :=
  (C5_env_rendering wHost exCfgPlain "/usr/bin").2.2 "warn" rfl

theorem winecfg_mem_wrapperGroups (cfg : Config) (rwc : Bool) :
    ["sh", "-c", winecfgScript] ∈ wrapperGroups cfg rwc ↔
      (cfg.with_wine = true ∧ rwc = true) := by
  have hne1 : winecfgScript ≠ wineserverScript := by decide
  have hne2 : winecfgScript ≠ secondTryScript := by decide
  rw [wrapperGroups]
  cases hw : cfg.with_wine <;> cases hr : rwc <;> cases hs : cfg.second_try <;>
    simp [hne1, hne2]

theorem dotwineStep_none {host : Host} {cfg : Config} (hdw : cfg.dotwine = none) :
    dotwineStep host cfg =
      Except.ok (mountsBeforeDotwine host cfg ++
          [MountTask.mk MountMode.TMPFS (host.home ++ "/.wine") none true],
        cfg.x11 && (cfg.configure || true), ([] : List String)) := by
  rw [dotwineStep, hdw]
  rfl

theorem dotwineStep_some {host : Host} {cfg : Config} {dw src : String} {acc : AccessMode}
    (hdw : cfg.dotwine = some dw) (hp : parse_path_colon_access dw = some (src, acc)) :
    dotwineStep host cfg =
      (if host.pathExists src then
        Except.ok (mountsBeforeDotwine host cfg ++
            [MountTask.mk
              (if acc = AccessMode.READ_WRITE then MountMode.BIND_RW else MountMode.BIND_RO)
              (host.home ++ "/.wine") (some src) true],
          cfg.x11 && (cfg.configure || false), ([] : List String))
      else
        Except.ok (mountsBeforeDotwine host cfg ++
            [MountTask.mk
              (if acc = AccessMode.READ_WRITE then MountMode.BIND_RW else MountMode.BIND_RO)
              (host.home ++ "/.wine") (some src) true],
          true, [src])) := by
  rw [dotwineStep, hdw]
  simp only [hp, Option.isNone_some]

theorem dotwineStep_winecfg {host : Host} {cfg : Config}
    {mm : List MountTask} {rwc : Bool} {cd : List String}
    (h : dotwineStep host cfg = Except.ok (mm, rwc, cd)) :
    (rwc = true ↔
      ((cfg.x11 = true ∧ (cfg.configure = true ∨ cfg.dotwine = none))
       ∨ (∃ dw src acc, cfg.dotwine = some dw ∧
           parse_path_colon_access dw = some (src, acc) ∧ host.pathExists src = false)))
    ∧ (∀ dw src acc, cfg.dotwine = some dw → parse_path_colon_access dw = some (src, acc) →
        host.pathExists src = false → cd = [src]) := by
  cases hdw : cfg.dotwine with
  | none =>
    rw [dotwineStep_none hdw] at h
    simp only [Except.ok.injEq, Prod.mk.injEq] at h
    obtain ⟨-, hrw, hcd⟩ := h
    subst hrw
    subst hcd
    constructor
    · simp
    · intro dw src acc hdw0
      simp at hdw0
  | some dw =>
    cases hp : parse_path_colon_access dw with
    | none =>
      rw [dotwineStep_error_of_parse hdw hp] at h
      exact absurd h (by simp)
    | some pr =>
      obtain ⟨src, acc⟩ := pr
      rw [dotwineStep_some hdw hp] at h
      by_cases hex : host.pathExists src = true
      · rw [if_pos hex] at h
        simp only [Except.ok.injEq, Prod.mk.injEq] at h
        obtain ⟨-, hrw, hcd⟩ := h
        subst hrw
        subst hcd
        constructor
        · constructor
          · intro hx
            left
            have hx2 := Bool.and_eq_true_iff.mp hx
            refine ⟨hx2.1, ?_⟩
            have hx3 := Bool.or_eq_true_iff.mp hx2.2
            cases hx3 with
            | inl h3 => exact Or.inl h3
            | inr h3 => exact absurd h3 (by simp)
          · intro hx
            cases hx with
            | inl h3 =>
              obtain ⟨h4, h5⟩ := h3
              cases h5 with
              | inl h6 => simp [h4, h6]
              | inr h6 => exact absurd h6 (by simp)
            | inr h3 =>
              obtain ⟨dw0, src0, acc0, hdw0, hp0, hex0⟩ := h3
              have hdweq : dw0 = dw := (Option.some.inj hdw0).symm
              subst hdweq
              rw [hp] at hp0
              obtain ⟨hsrc, -⟩ := Prod.mk.injEq .. |>.mp (Option.some.inj hp0)
              rw [← hsrc] at hex0
              rw [hex] at hex0
              exact Bool.noConfusion hex0
        · intro dw0 src0 acc0 hdw0 hp0 hex0
          have hdweq : dw0 = dw := (Option.some.inj hdw0).symm
          subst hdweq
          rw [hp] at hp0
          obtain ⟨hsrc, -⟩ := Prod.mk.injEq .. |>.mp (Option.some.inj hp0)
          rw [← hsrc] at hex0
          rw [hex] at hex0
          exact Bool.noConfusion hex0
      · have hex2 : host.pathExists src = false := by
          cases hc : host.pathExists src
          · rfl
          · exact absurd hc hex
        rw [if_neg hex] at h
        simp only [Except.ok.injEq, Prod.mk.injEq] at h
        obtain ⟨-, hrw, hcd⟩ := h
        subst hrw
        subst hcd
        constructor
        · exact iff_of_true rfl (Or.inr ⟨dw, src, acc, rfl, hp, hex2⟩)
        · intro dw0 src0 acc0 hdw0 hp0 _
          have hdweq : dw0 = dw := (Option.some.inj hdw0).symm
          subst hdweq
          rw [hp] at hp0
          obtain ⟨hsrc, -⟩ := Prod.mk.injEq .. |>.mp (Option.some.inj hp0)
          rw [hsrc]

theorem mountPlanResult_step {host : Host} {cfg : Config}
    {m : List MountTask} {rwc : Bool} {cd : List String}
    (h : mountPlanResult host cfg = Except.ok (m, rwc, cd)) :
    ∃ mm, dotwineStep host cfg = Except.ok (mm, rwc, cd) := by
  rw [mountPlanResult] at h
  obtain ⟨trip, h1, h2⟩ := except_bind_ok h
  obtain ⟨mm, rw4, cd4⟩ := trip
  have h2' : (extraBindTasks host cfg >>=
      (fun extra => pure (mm ++ extra ++ programBindTasks host cfg, rw4, cd4))) =
      Except.ok (m, rwc, cd) := h2
  obtain ⟨extra, h3, h4⟩ := except_bind_ok h2'
  have h5 : (mm ++ extra ++ programBindTasks host cfg, rw4, cd4) = (m, rwc, cd) := by
    simpa [pure, Except.pure] using h4
  simp only [Prod.mk.injEq] at h5
  obtain ⟨-, hrw, hcd⟩ := h5
  subst hrw
  subst hcd
  exact ⟨mm, h1⟩

/-- C4 counterexample: with display DISABLED and `--dotwine /missing/d:rw`
naming a non-existent host path, the builder creates the directory and
still schedules the one-time winecfg setup-gate wrapper — so the wrapper
is not included "exactly when display is enabled and (explicit setup or
fresh profile)". -/
theorem C4_winecfg_counterexample :
    exCfgDotwine.x11 = false ∧
      (create_bwrap_argv exHostDotwine exCfgDotwine).map (fun out =>
        (out.groups.contains ["sh", "-c", winecfgScript])
          && (out.createdDirs == ["/missing/d"])) = Except.ok true :=
  ⟨rfl, rfl⟩

/-- C4 (amended): the winecfg setup-gate wrapper appears in the wrapper
fragments exactly when Wine use is enabled and `run_winecfg` holds, where
`run_winecfg` holds iff display is enabled and (explicit `--configure` or
no `--dotwine` given), OR an explicit `--dotwine` path was supplied whose
host path does not exist; in the latter case that directory is recorded
as created, so `--dotwine` with a missing path creates the directory and
(Wine enabled) schedules the wrapper even with display disabled. -/
theorem C4_winecfg_gate :
    ∀ (host : Host) (cfg : Config) (m : List MountTask) (rwc : Bool) (cd : List String),
      mountPlanResult host cfg = Except.ok (m, rwc, cd) →
      ((["sh", "-c", winecfgScript] ∈ wrapperGroups cfg rwc ↔
          (cfg.with_wine = true ∧ rwc = true))
       ∧ (rwc = true ↔
          ((cfg.x11 = true ∧ (cfg.configure = true ∨ cfg.dotwine = none))
           ∨ (∃ dw src acc, cfg.dotwine = some dw ∧
               parse_path_colon_access dw = some (src, acc) ∧
               host.pathExists src = false)))
       ∧ (∀ dw src acc, cfg.dotwine = some dw →
           parse_path_colon_access dw = some (src, acc) →
           host.pathExists src = false → cd = [src] ∧ rwc = true)) := by
  intro host cfg m rwc cd h
  obtain ⟨mm, hds⟩ := mountPlanResult_step h
  obtain ⟨hiff, hcd⟩ := dotwineStep_winecfg hds
  refine ⟨winecfg_mem_wrapperGroups cfg rwc, hiff, ?_⟩
  intro dw src acc h1 h2 h3
  exact ⟨hcd dw src acc h1 h2 h3, hiff.mpr (Or.inr ⟨dw, src, acc, h1, h2, h3⟩)⟩

theorem C4_winecfg_gate_witness :
    ["sh", "-c", winecfgScript] ∈ wrapperGroups wCfgX11 true :=
  ((C4_winecfg_gate wHost wCfgX11
      (baseMountTasks "/home/u" ++
        [MountTask.mk MountMode.BIND_RW "/tmp/.X11-unix/X0" none true,
         MountTask.mk MountMode.TMPFS "/home/u/.wine" none true])
      true [] rfl).1).mpr ⟨rfl, rfl⟩

end Sandwine
